import Mathlib

/-!
Shallow embedding of `crates/ra_flycheck/src/lib.rs` (the flycheck
supervisor: `Flycheck`, `FlycheckThread`, `run_cargo`).

Modelling conventions:
- Machine side effects that the source performs through external crates
  (logging via `log`, the `ra_progress` sink, channel sends) are made
  explicit: emitted tasks and events are collected in lists, the progress
  sink records the reported names, and a channel whose receiver may
  disappear is modelled by a budget of sends that still succeed.
- The child process is modelled by the parse results of its stdout lines
  (`none` = a line that failed to decode as a message) plus its exit
  status; OS-level IO failures of `spawn`/`wait` are outside the model,
  which presumes a process that was spawned and eventually reaped.
- `PathBuf::join` is modelled as string concatenation with "/".
-/

/-- Exit status of the child process (`std::process::ExitStatus`):
`success` holds exactly when the exit code is 0. -/
structure ExitStatus where
  code : Option Int
deriving DecidableEq, Repr

def ExitStatus.success (e : ExitStatus) : Bool :=
  e.code = some 0

/-- `cargo_metadata::diagnostic::Diagnostic`, opaque payload. -/
structure Diagnostic where
  rendered : String
deriving DecidableEq, Repr

/-- Target of a compiler artifact (only the name is used). -/
structure Target where
  name : String
deriving DecidableEq, Repr

/-- `cargo_metadata::Artifact`: only the fields the source reads. -/
structure Artifact where
  fresh : Bool
  target : Target
deriving DecidableEq, Repr

/-- `cargo_metadata::CompilerMessage`: only the diagnostic payload is read. -/
structure CompilerMessagePayload where
  message : Diagnostic
deriving DecidableEq, Repr

/-- `cargo_metadata::Message`, the structured message decoded from one
stdout line.  Payloads the source never reads are dropped. -/
inductive Message where
  | CompilerArtifact (artifact : Artifact)
  | CompilerMessage (msg : CompilerMessagePayload)
  | BuildScriptExecuted
  | BuildFinished
  | TextLine (line : String)
  | Unknown
deriving DecidableEq, Repr

/-- `FlycheckConfig` from the source. -/
inductive FlycheckConfig where
  | CargoCommand (command : String) (all_targets : Bool) (all_features : Bool)
      (features : List String) (extra_args : List String)
  | CustomCommand (command : String) (args : List String)
deriving DecidableEq, Repr

/-- `CheckTask`, the outward contract of the supervisor loop. -/
inductive CheckTask where
  | ClearDiagnostics
  | AddDiagnostic (workspace_root : String) (diagnostic : Diagnostic)
deriving DecidableEq, Repr

/-- `CheckCommand`: the only command is a restart request. -/
inductive CheckCommand where
  | Update
deriving DecidableEq, Repr

/-- `CheckEvent`, produced by the event-bridge thread. -/
inductive CheckEvent where
  | Begin
  | Msg (m : Message)
  | End
deriving DecidableEq, Repr

/-- `std::process::Command` as observed by this module: a program, the
argument vector accumulated by `arg`/`args` calls, and the working
directory set by `current_dir`. -/
structure CommandSpec where
  program : String
  args : List String
  cwd : Option String
deriving DecidableEq, Repr

def CommandSpec.new (program : String) : CommandSpec :=
  { program := program, args := [], cwd := none }

/-- `Command::arg`: append one argument. -/
def CommandSpec.arg (c : CommandSpec) (a : String) : CommandSpec :=
  { c with args := c.args ++ [a] }

/-- `Command::args`: append a list of arguments. -/
def CommandSpec.addArgs (c : CommandSpec) (l : List String) : CommandSpec :=
  { c with args := c.args ++ l }

/-- `Command::current_dir`. -/
def CommandSpec.current_dir (c : CommandSpec) (d : String) : CommandSpec :=
  { c with cwd := some d }

/-- One spawned child process, as visible to `run_cargo`: the decode
results of its stdout lines (`none` for a line that is not valid JSON for
a `Message`) and the exit status obtained by `wait`. -/
structure ProcessRun where
  lines : List (Option Message)
  exit_status : ExitStatus
deriving DecidableEq, Repr

/-- The error value built by `run_cargo` on a failing exit with no decoded
output; it records the exit status and the invocation (the source formats
both into the error message). -/
structure CargoError where
  exit_status : ExitStatus
  command : CommandSpec
deriving DecidableEq, Repr

/-- Result of one `run_cargo` call: the `io::Result` value and the final
state of the (stateful) `on_message` closure. -/
structure RunOutcome (σ : Type) where
  result : Except CargoError Unit
  cbState : σ

/-- The message-reading loop of `run_cargo` (lines 302-317 of the source):
skip lines that fail to decode, set the `read_at_least_one_message` flag
before invoking the callback, stop when the callback returns `false`.
Returns the final callback state and the flag. -/
def runCargoLoop {σ : Type} (on_message : σ → Message → Bool × σ) :
    List (Option Message) → σ → Bool → σ × Bool
  | [], s, flag => (s, flag)
  | Option.none :: rest, s, flag => runCargoLoop on_message rest s flag
  | Option.some m :: rest, s, flag =>
    let r := on_message s m
    if r.1 then runCargoLoop on_message rest r.2 true
    else (r.2, true)

/-- `run_cargo` (lines 286-336): run the reading loop, then kill and wait
the child (kill errors ignored), and fail exactly when the exit status is
failing and no message was ever decoded. The callback is stateful (in the
source it is a closure over the event channel sender). -/
def run_cargo {σ : Type} (command : CommandSpec) (on_message : σ → Message → Bool × σ)
    (proc : ProcessRun) (s : σ) : RunOutcome σ :=
  let r := runCargoLoop on_message proc.lines s false
  if !proc.exit_status.success && !r.2 then
    { result := Except.error { exit_status := proc.exit_status, command := command },
      cbState := r.1 }
  else
    { result := Except.ok (), cbState := r.1 }

/-- The `ra_progress` source (external collaborator; only its interface is
used by this module). -/
structure ProgressSource where
deriving DecidableEq, Repr

/-- The `ra_progress` progress handle.  Modelled from the spec: the sink
exposes begin()/report(name)/drop-to-end() semantics; the handle records
the names reported so far. -/
structure Progress where
  reported : List String
deriving DecidableEq, Repr

/-- `ProgressSource::begin`, yielding a fresh progress handle. -/
def ProgressSource.begin (_src : ProgressSource) (_u : Unit) : Progress :=
  { reported := [] }

/-- `Progress::report`. -/
def Progress.report (p : Progress) (name : String) : Progress :=
  { reported := p.reported ++ [name] }

/-- `Instant` (only the presence of a stored instant is ever inspected). -/
abbrev Instant := Nat

/-- State of the `message_recv` field: a live channel from the current
bridge thread, or the `never()` channel. -/
inductive RecvChannel where
  | never
  | connected
deriving DecidableEq, Repr

/-- The private state of `FlycheckThread` (lines 95-109).  The
`check_process` field holds the jod-thread join handle of the current
bridge thread (presence only). -/
structure FlycheckThread where
  config : FlycheckConfig
  workspace_root : String
  last_update_req : Option Instant
  progress_src : ProgressSource
  progress : Option Progress
  message_recv : RecvChannel
  check_process : Option Unit
deriving DecidableEq, Repr

/-- `FlycheckThread::new` (lines 112-126). -/
def FlycheckThread.new (config : FlycheckConfig) (workspace_root : String)
    (progress_src : ProgressSource) : FlycheckThread :=
  { config := config
    workspace_root := workspace_root
    progress_src := progress_src
    last_update_req := none
    progress := none
    message_recv := RecvChannel.never
    check_process := none }

/-- `FlycheckThread::clean_previous_results` (lines 160-163): the tasks it
sends are returned alongside the new state. -/
def clean_previous_results (st : FlycheckThread) : FlycheckThread × List CheckTask :=
  ({ st with progress := none }, [CheckTask.ClearDiagnostics])

/-- `FlycheckThread::should_recheck` (lines 165-173): only the presence of
a pending update request matters. -/
def should_recheck (st : FlycheckThread) : Bool :=
  st.last_update_req.isSome

/-- `FlycheckThread::handle_command` (lines 175-179); `now` is the value
of `Instant::now()` at the call. -/
def handle_command (st : FlycheckThread) (cmd : CheckCommand) (now : Instant) : FlycheckThread :=
  match cmd with
  | CheckCommand.Update => { st with last_update_req := some now }

/-- `FlycheckThread::handle_message` (lines 181-208).  `none` models the
fatal `expect` on a compiler-artifact progress message that arrives while
no progress handle is present; otherwise the new state and the tasks sent
to `task_send` are returned. -/
def handle_message (st : FlycheckThread) (msg : CheckEvent) :
    Option (FlycheckThread × List CheckTask) :=
  match msg with
  | CheckEvent.Begin =>
    some ({ st with progress := some (st.progress_src.begin ()) }, [])
  | CheckEvent.End => some ({ st with progress := none }, [])
  | CheckEvent.Msg (Message.CompilerArtifact a) =>
    match st.progress with
    | none => none
    | some p => some ({ st with progress := some (p.report a.target.name) }, [])
  | CheckEvent.Msg (Message.CompilerMessage m) =>
    some (st, [CheckTask.AddDiagnostic st.workspace_root m.message])
  | CheckEvent.Msg Message.BuildScriptExecuted => some (st, [])
  | CheckEvent.Msg Message.BuildFinished => some (st, [])
  | CheckEvent.Msg (Message.TextLine _) => some (st, [])
  | CheckEvent.Msg Message.Unknown => some (st, [])

/-- The command constructed by `FlycheckThread::restart_check_process`
(lines 215-245), written as the same sequence of `arg`/`args` calls;
`cargo_tool` is the path returned by `ra_toolchain::cargo()`. -/
def checkCommand (cargo_tool : String) (config : FlycheckConfig)
    (workspace_root : String) : CommandSpec :=
  let cmd := match config with
    | FlycheckConfig.CargoCommand command all_targets all_features features extra_args =>
      let cmd := CommandSpec.new cargo_tool
      let cmd := cmd.arg command
      let cmd := (cmd.addArgs ["--workspace", "--message-format=json", "--manifest-path"]).arg
        (workspace_root ++ "/Cargo.toml")
      let cmd := if all_targets then cmd.arg "--all-targets" else cmd
      let cmd :=
        if all_features then cmd.arg "--all-features"
        else if !features.isEmpty then
          (cmd.arg "--features").arg (String.intercalate " " features)
        else cmd
      cmd.addArgs extra_args
    | FlycheckConfig.CustomCommand command args =>
      (CommandSpec.new command).addArgs args
  cmd.current_dir workspace_root

/-- The effect of `FlycheckThread::restart_check_process` (lines 210-214
and 247-249) on the loop state: the old channel and join handle are
replaced (dropping the old handle joins the previous bridge thread) and a
fresh connected channel and bridge thread are installed. -/
def restart_check_process (st : FlycheckThread) : FlycheckThread :=
  { st with message_recv := RecvChannel.connected, check_process := some () }

/-- Items observable from one supervisor-loop execution: tasks sent on the
task channel, and the start of a new run (the spawn performed by
`restart_check_process`). -/
inductive TraceItem where
  | task (t : CheckTask)
  | runStart
deriving DecidableEq, Repr

/-- The post-arm step of the loop body (lines 152-156): if a recheck is
due, reset the request, send ClearDiagnostics and restart the check
process. -/
def recheckStep (st : FlycheckThread) : FlycheckThread × List TraceItem :=
  match should_recheck st with
  | true =>
    (restart_check_process { st with last_update_req := none },
      [TraceItem.task CheckTask.ClearDiagnostics, TraceItem.runStart])
  | false => (st, [])

/-- One value delivered by the `select!` in `FlycheckThread::run`: a
command (with the `Instant::now()` observed when handling it), a closed
command channel, an event, or a closed event channel. -/
inductive Stimulus where
  | cmd (c : CheckCommand) (now : Instant)
  | cmdClosed
  | msg (e : CheckEvent)
  | msgClosed
deriving DecidableEq, Repr

/-- Result of one `select!` arm (lines 133-150). -/
inductive MatchOut where
  | brk
  | panicked
  | cont (st : FlycheckThread) (tasks : List CheckTask)
deriving DecidableEq, Repr

/-- The `select!` arms of `FlycheckThread::run`: a closed command channel
breaks the loop, a closed event channel resets `message_recv` to never
and drops the bridge-thread handle, and events are dispatched to
`handle_message` (whose fatal branch ends the thread). -/
def selectArm (st : FlycheckThread) (stim : Stimulus) : MatchOut :=
  match stim with
  | Stimulus.cmd c now => MatchOut.cont (handle_command st c now) []
  | Stimulus.cmdClosed => MatchOut.brk
  | Stimulus.msg e =>
    match handle_message st e with
    | none => MatchOut.panicked
    | some (st1, tasks) => MatchOut.cont st1 tasks
  | Stimulus.msgClosed =>
    MatchOut.cont { st with message_recv := RecvChannel.never, check_process := none } []

/-- Why the loop stopped consuming stimuli. -/
inductive LoopOutcome where
  | cmdClosedExit
  | exhausted
  | panicked
deriving DecidableEq, Repr

structure LoopResult where
  state : FlycheckThread
  trace : List TraceItem
  outcome : LoopOutcome
deriving DecidableEq, Repr

/-- The `loop` of `FlycheckThread::run` (lines 132-157), consuming the
given stimuli in order. -/
def loopGo (st : FlycheckThread) : List Stimulus → LoopResult
  | [] => { state := st, trace := [], outcome := LoopOutcome.exhausted }
  | stim :: rest =>
    match selectArm st stim with
    | MatchOut.brk => { state := st, trace := [], outcome := LoopOutcome.cmdClosedExit }
    | MatchOut.panicked => { state := st, trace := [], outcome := LoopOutcome.panicked }
    | MatchOut.cont st1 tasks =>
      let rc := recheckStep st1
      let r := loopGo rc.1 rest
      { state := r.state
        trace := tasks.map TraceItem.task ++ rc.2 ++ r.trace
        outcome := r.outcome }

/-- `FlycheckThread::run` (lines 128-158): clean previous results, then
run the loop. -/
def FlycheckThread.run (st : FlycheckThread) (stimuli : List Stimulus) : LoopResult :=
  let c := clean_previous_results st
  let r := loopGo c.1 stimuli
  { state := r.state
    trace := c.2.map TraceItem.task ++ r.trace
    outcome := r.outcome }

/-- State of the event channel as seen from the bridge thread: the number
of sends that will still succeed before the receiving side is gone (the
receiver disappearing is permanent), and the events delivered so far. -/
structure BridgeState where
  budget : Nat
  sent : List CheckEvent
deriving DecidableEq, Repr

/-- `Sender::send` on the event channel: fails exactly when the budget is
exhausted. -/
def BridgeState.send (s : BridgeState) (e : CheckEvent) : Bool × BridgeState :=
  match s.budget with
  | 0 => (false, s)
  | Nat.succ b => (true, { budget := b, sent := s.sent ++ [e] })

/-- The per-message closure passed to `run_cargo` by the bridge thread
(lines 254-265): suppress fresh artifacts, build-script notifications and
unknown messages; otherwise forward the message and keep going exactly
when the send succeeded. -/
def bridgeOnMessage (s : BridgeState) (m : Message) : Bool × BridgeState :=
  match m with
  | Message.CompilerArtifact a =>
    if a.fresh then (true, s) else s.send (CheckEvent.Msg m)
  | Message.BuildScriptExecuted => (true, s)
  | Message.Unknown => (true, s)
  | _ => s.send (CheckEvent.Msg m)

/-- Observable result of the bridge thread: the events delivered on the
event channel and the `run_cargo` error that was logged, if any.  The
thread itself always returns normally. -/
structure BridgeRun where
  sent : List CheckEvent
  logged_error : Option CargoError
deriving Repr

/-- The closure spawned by `restart_check_process` (lines 249-276):
best-effort Begin, `run_cargo` with the filtering callback, log a
failure, best-effort End. -/
def check_process_thread (command : CommandSpec) (proc : ProcessRun)
    (budget : Nat) : BridgeRun :=
  let s0 : BridgeState := { budget := budget, sent := [] }
  let s1 := (s0.send CheckEvent.Begin).2
  let out := run_cargo command bridgeOnMessage proc s1
  let logged := match out.result with
    | Except.error e => some e
    | Except.ok _ => none
  let s2 := (out.cbState.send CheckEvent.End).2
  { sent := s2.sent, logged_error := logged }

/-- The messages the bridge callback forwards (not suppressed). -/
def suppressed (m : Message) : Bool :=
  match m with
  | Message.CompilerArtifact a => a.fresh
  | Message.BuildScriptExecuted => true
  | Message.Unknown => true
  | _ => false

/-- The decoded, non-suppressed messages of a stdout stream, in order. -/
def forwardedMessages (lines : List (Option Message)) : List Message :=
  lines.filterMap (fun l => match l with
    | some m => if suppressed m then none else some m
    | none => none)

/-- One drop action performed when a `Flycheck` handle is discarded. -/
inductive DropAction where
  | dropCmdSender
  | joinLoopThread
  | dropTaskReceiver
deriving DecidableEq, Repr

/-- Rust drops the fields of a struct in declaration order; the `Flycheck`
struct (lines 53-59, with its drop-order comment) declares `cmd_send`,
then the jod-thread `handle` (whose drop joins the loop thread), then
`task_recv`, so discarding a `Flycheck` performs these actions in this
order. -/
def flycheckDropSequence : List DropAction :=
  [DropAction.dropCmdSender, DropAction.joinLoopThread, DropAction.dropTaskReceiver]

/-- The `read_at_least_one_message` flag after the reading loop: it is set
exactly when some line of the stream decoded to a message (the flag is set
before the callback runs, so an early stop cannot unset it and a stop can
only happen at a decoded message). -/
theorem runCargoLoop_flag {σ : Type} (on_message : σ → Message → Bool × σ) :
    ∀ (lines : List (Option Message)) (s : σ) (flag : Bool),
      (runCargoLoop on_message lines s flag).2 = (flag || lines.any Option.isSome) := by
  intro lines
  induction lines with
  | nil => intro s flag; simp [runCargoLoop]
  | cons l rest ih =>
    intro s flag
    cases l with
    | none => simp [runCargoLoop, ih]
    | some m =>
      cases hr : (on_message s m).1 <;>
        simp [runCargoLoop, hr, ih]

/-- The callback state after `run_cargo` is the state after the reading
loop, independently of the success check. -/
theorem run_cargo_cbState {σ : Type} (command : CommandSpec)
    (on_message : σ → Message → Bool × σ) (proc : ProcessRun) (s : σ) :
    (run_cargo command on_message proc s).cbState
      = (runCargoLoop on_message proc.lines s false).1 := by
  simp only [run_cargo]
  split <;> rfl

/-- Complete characterization of the result of `run_cargo`: an error
carrying the exit status and the invocation exactly when the exit status
is failing and no line of the stream decoded; `Ok` otherwise. -/
theorem run_cargo_result_eq {σ : Type} (command : CommandSpec)
    (on_message : σ → Message → Bool × σ) (proc : ProcessRun) (s : σ) :
    (run_cargo command on_message proc s).result
      = if proc.exit_status.success = false ∧ proc.lines.any Option.isSome = false then
          Except.error { exit_status := proc.exit_status, command := command }
        else Except.ok () := by
  have hflag := runCargoLoop_flag on_message proc.lines s false
  simp only [run_cargo]
  rw [hflag]
  cases hs : proc.exit_status.success <;>
    cases ha : proc.lines.any Option.isSome <;>
      simp [hs, ha]

/-- C1: `run_cargo` returns a failure if and only if the child exited with
a failing status and zero messages were ever decoded from its stdout; in
every other case (successful exit, failing exit with at least one decoded
message, or an early stop requested by the callback, which can only
happen at a decoded message) it returns success, and the failure value
records the exit status and the invocation. -/
theorem c1_run_cargo_fails_iff_bad_exit_and_no_decoded_message {σ : Type}
    (command : CommandSpec) (on_message : σ → Message → Bool × σ)
    (proc : ProcessRun) (s : σ) :
    (run_cargo command on_message proc s).result
      = if proc.exit_status.success = false ∧ proc.lines.any Option.isSome = false then
          Except.error { exit_status := proc.exit_status, command := command }
        else Except.ok () :=
  run_cargo_result_eq command on_message proc s

/-- Dropping one undecodable line from the stream changes nothing in the
reading loop: neither the final callback state nor the flag. -/
theorem runCargoLoop_skip_none {σ : Type} (on_message : σ → Message → Bool × σ) :
    ∀ (xs ys : List (Option Message)) (s : σ) (flag : Bool),
      runCargoLoop on_message (xs ++ none :: ys) s flag
        = runCargoLoop on_message (xs ++ ys) s flag := by
  intro xs
  induction xs with
  | nil => intro ys s flag; rfl
  | cons l rest ih =>
    intro ys s flag
    cases l with
    | none =>
      simp only [List.cons_append, runCargoLoop]
      exact ih ys s flag
    | some m =>
      simp only [List.cons_append, runCargoLoop]
      cases hr : (on_message s m).1 <;> simp [hr, ih]

/-- C3: a line that fails to decode is skipped: the whole observable
outcome of `run_cargo` (result and final callback state, hence every
callback invocation) on a stream with one malformed line equals the
outcome on the same stream without that line, so every subsequent line is
still decoded and forwarded and no single malformed line aborts the run.
(The log entry for the skipped line goes to the external logger and is
outside the model.) -/
theorem c3_malformed_line_skipped {σ : Type} (command : CommandSpec)
    (on_message : σ → Message → Bool × σ) (xs ys : List (Option Message))
    (est : ExitStatus) (s : σ) :
    run_cargo command on_message { lines := xs ++ none :: ys, exit_status := est } s
      = run_cargo command on_message { lines := xs ++ ys, exit_status := est } s := by
  unfold run_cargo
  rw [runCargoLoop_skip_none]

/-- C10: the at-least-one-message flag is set before the callback is
invoked, so whenever at least one line decodes, `run_cargo` succeeds, for
every callback (even one that suppresses every message or stops at the
first one) and every exit status. -/
theorem c10_success_whenever_any_line_decodes {σ : Type} (command : CommandSpec)
    (on_message : σ → Message → Bool × σ) (proc : ProcessRun) (s : σ)
    (h : proc.lines.any Option.isSome = true) :
    (run_cargo command on_message proc s).result = Except.ok () := by
  rw [run_cargo_result_eq]
  simp [h]

/-- C10 witness: a process that emits one decodable line and exits with
status 1, run against a callback that stops at the first message, is
reported as success. -/
theorem c10_witness :
    (([some Message.Unknown] : List (Option Message)).any Option.isSome = true)
    ∧ (run_cargo (CommandSpec.new "cargo") (fun (s : Unit) _ => (false, s))
        { lines := [some Message.Unknown], exit_status := { code := some 1 } } ()).result
      = Except.ok () :=
  ⟨by decide,
    c10_success_whenever_any_line_decodes (CommandSpec.new "cargo")
      (fun (s : Unit) _ => (false, s))
      { lines := [some Message.Unknown], exit_status := { code := some 1 } } ()
      (by decide)⟩

/-- C6: handling an artifact-progress message is fatal (the `expect`
fires) exactly when no progress handle is present; with a handle present
the fatal branch is unreachable and the target name of the artifact is
reported to the handle. -/
theorem c6_artifact_progress_fatal_iff_no_begin (st : FlycheckThread) (a : Artifact) :
    (handle_message st (CheckEvent.Msg (Message.CompilerArtifact a)) = none
        ↔ st.progress = none)
    ∧ (∀ p, st.progress = some p →
        handle_message st (CheckEvent.Msg (Message.CompilerArtifact a))
          = some ({ st with progress := some (p.report a.target.name) }, [])) := by
  cases hp : st.progress <;> simp [handle_message, hp]

/-- C6 witness: with a progress handle present (Begin observed, End not),
the artifact message does not hit the fatal branch and its target name is
reported. -/
theorem c6_witness :
    handle_message
        { FlycheckThread.new (FlycheckConfig.CustomCommand "c" []) "/ws" ProgressSource.mk with
            progress := some { reported := [] } }
        (CheckEvent.Msg (Message.CompilerArtifact { fresh := false, target := { name := "lib" } }))
      = some ({ FlycheckThread.new (FlycheckConfig.CustomCommand "c" []) "/ws" ProgressSource.mk with
            progress := some { reported := ["lib"] } }, []) :=
  (c6_artifact_progress_fatal_iff_no_begin
      { FlycheckThread.new (FlycheckConfig.CustomCommand "c" []) "/ws" ProgressSource.mk with
          progress := some { reported := [] } }
      { fresh := false, target := { name := "lib" } }).2
    { reported := [] } rfl

/-- Two consecutive restart commands collapse to the latest one: the
stored request is overwritten. -/
theorem handle_command_collapse (st : FlycheckThread) (a b : Instant) :
    handle_command (handle_command st CheckCommand.Update a) CheckCommand.Update b
      = handle_command st CheckCommand.Update b := rfl

/-- The recheck step after at least one pending request: reset the
request, emit one ClearDiagnostics and start one run, independently of
the stored instant. -/
theorem recheckStep_after_update (st : FlycheckThread) (a : Instant) :
    recheckStep (handle_command st CheckCommand.Update a)
      = (restart_check_process { st with last_update_req := none },
          [TraceItem.task CheckTask.ClearDiagnostics, TraceItem.runStart]) := rfl

/-- Folding any nonempty sequence of restart commands and then rechecking
is the same as one command followed by the recheck. -/
theorem foldl_update_recheck :
    ∀ (ts : List Instant) (st : FlycheckThread) (t : Instant),
      recheckStep (List.foldl (fun s now => handle_command s CheckCommand.Update now)
          st (t :: ts))
        = recheckStep (handle_command st CheckCommand.Update t) := by
  intro ts
  induction ts with
  | nil => intro st t; rfl
  | cons t2 ts2 ih =>
    intro st t
    have h1 : List.foldl (fun s now => handle_command s CheckCommand.Update now)
          st (t :: t2 :: ts2)
        = List.foldl (fun s now => handle_command s CheckCommand.Update now)
          (handle_command st CheckCommand.Update t) (t2 :: ts2) := rfl
    rw [h1, ih (handle_command st CheckCommand.Update t) t2, handle_command_collapse,
      recheckStep_after_update, recheckStep_after_update]

/-- C7: recording a restart request is idempotent: handling any number of
consecutive restart commands leaves the loop in a state whose recheck
decision is identical (same resulting state, and exactly one
ClearDiagnostics followed by exactly one new run) to the one after a
single command. -/
theorem c7_restart_request_idempotent (st : FlycheckThread) (t : Instant)
    (ts : List Instant) :
    recheckStep (List.foldl (fun s now => handle_command s CheckCommand.Update now)
        st (t :: ts))
      = recheckStep (handle_command st CheckCommand.Update t)
    ∧ (recheckStep (handle_command st CheckCommand.Update t)).2
      = [TraceItem.task CheckTask.ClearDiagnostics, TraceItem.runStart] :=
  ⟨foldl_update_recheck ts st t, by rw [recheckStep_after_update]⟩

/-- C8 (counterexample): with an empty feature list and `all_features`
unset, the constructed argument vector contains no `--features` argument
at all, contradicting the claim that in the absence of `--all-features`
the vector contains `--features` followed by the joined feature names. -/
theorem c8_counterexample_empty_feature_list :
    (checkCommand "cargo" (FlycheckConfig.CargoCommand "check" false false [] []) "/ws").args
      = ["check", "--workspace", "--message-format=json", "--manifest-path", "/ws/Cargo.toml"]
    ∧ (checkCommand "cargo" (FlycheckConfig.CargoCommand "check" false false [] []) "/ws").args
      ≠ ["check", "--workspace", "--message-format=json", "--manifest-path", "/ws/Cargo.toml",
          "--features", ""] := by
  exact ⟨by decide, by decide⟩

/-- C8 (amended): for the build-tool variant the invocation is the tool,
the subcommand, `--workspace --message-format=json --manifest-path
<root>/Cargo.toml`, then `--all-targets` when set, then `--all-features`
when set or else (only when the feature list is non-empty) `--features`
with the names joined by single spaces, then the extra arguments, with
the working directory set to the build root. -/
theorem c8_amended_cargo_invocation_vector (cargo_tool command : String)
    (all_targets all_features : Bool) (features extra_args : List String)
    (workspace_root : String) :
    checkCommand cargo_tool
        (FlycheckConfig.CargoCommand command all_targets all_features features extra_args)
        workspace_root
      = { program := cargo_tool
          args := [command, "--workspace", "--message-format=json", "--manifest-path",
              workspace_root ++ "/Cargo.toml"]
            ++ (if all_targets then ["--all-targets"] else [])
            ++ (if all_features then ["--all-features"]
                else if features = [] then [] else
                  ["--features", String.intercalate " " features])
            ++ extra_args
          cwd := some workspace_root } := by
  cases all_targets <;> cases all_features <;> cases features <;>
    simp [checkCommand, CommandSpec.new, CommandSpec.arg, CommandSpec.addArgs,
      CommandSpec.current_dir]

/-- Adjacency invariant of the task trace: whatever immediately precedes
the start of a run is a ClearDiagnostics task. -/
def clearPrecedes (a b : TraceItem) : Prop :=
  b = TraceItem.runStart → a = TraceItem.task CheckTask.ClearDiagnostics

/-- A well-formed trace: every run start is immediately preceded by a
ClearDiagnostics, and the trace does not begin with a run start. -/
def GoodTrace (tr : List TraceItem) : Prop :=
  List.Chain' clearPrecedes tr ∧ tr.head? ≠ some TraceItem.runStart

theorem goodTrace_nil : GoodTrace [] := ⟨List.chain'_nil, by simp⟩

theorem goodTrace_append {a b : List TraceItem} (ha : GoodTrace a) (hb : GoodTrace b) :
    GoodTrace (a ++ b) := by
  constructor
  · refine List.chain'_append.2 ⟨ha.1, hb.1, ?_⟩
    intro x _hx y hy hyr
    rw [hyr] at hy
    exact absurd hy hb.2
  · cases a with
    | nil => simpa using hb.2
    | cons x xs => simpa using ha.2

theorem goodTrace_of_no_runStart {l : List TraceItem}
    (h : ∀ x ∈ l, x ≠ TraceItem.runStart) : GoodTrace l := by
  constructor
  · induction l with
    | nil => exact List.chain'_nil
    | cons a rest ih =>
      refine List.chain'_cons'.2 ⟨?_, ih (fun x hx => h x (List.mem_cons_of_mem _ hx))⟩
      intro y hy hyr
      exact absurd hyr (h y (List.mem_cons_of_mem _ (List.mem_of_mem_head? hy)))
  · cases l with
    | nil => simp
    | cons a rest =>
      have := h a (List.mem_cons_self _ _)
      simpa using this

theorem goodTrace_tasks (ts : List CheckTask) : GoodTrace (ts.map TraceItem.task) := by
  apply goodTrace_of_no_runStart
  intro x hx
  rcases List.mem_map.1 hx with ⟨t, _, rfl⟩
  simp

theorem goodTrace_restart_chunk :
    GoodTrace [TraceItem.task CheckTask.ClearDiagnostics, TraceItem.runStart] := by
  constructor
  · exact List.chain'_pair.2 (fun _ => rfl)
  · simp

theorem recheckStep_good (st : FlycheckThread) : GoodTrace (recheckStep st).2 := by
  cases h : should_recheck st <;> simp only [recheckStep, h]
  · exact goodTrace_nil
  · exact goodTrace_restart_chunk

/-- Every trace produced by the supervisor loop body is well formed. -/
theorem loopGo_good : ∀ (stimuli : List Stimulus) (st : FlycheckThread),
    GoodTrace (loopGo st stimuli).trace := by
  intro stimuli
  induction stimuli with
  | nil => intro st; exact goodTrace_nil
  | cons stim rest ih =>
    intro st
    cases h : selectArm st stim with
    | brk => simp only [loopGo, h]; exact goodTrace_nil
    | panicked => simp only [loopGo, h]; exact goodTrace_nil
    | cont st1 tasks =>
      simp only [loopGo, h]
      exact goodTrace_append (goodTrace_append (goodTrace_tasks tasks) (recheckStep_good st1))
        (ih _)

/-- C2: in every trace of the supervisor loop, one ClearDiagnostics is
emitted unconditionally before the first iteration (it is the first trace
item), every item immediately preceding a run start is a
ClearDiagnostics, and any prefix of the trace that ends right before a
run start ends in a ClearDiagnostics, so diagnostics of two different
runs never appear without an intervening ClearDiagnostics. -/
theorem c2_clear_diagnostics_precedes_every_run (st : FlycheckThread)
    (stimuli : List Stimulus) :
    ((FlycheckThread.run st stimuli).trace).head?
        = some (TraceItem.task CheckTask.ClearDiagnostics)
    ∧ List.Chain' clearPrecedes (FlycheckThread.run st stimuli).trace
    ∧ (∀ pre post, (FlycheckThread.run st stimuli).trace
          = pre ++ TraceItem.runStart :: post →
        ∃ pre2, pre = pre2 ++ [TraceItem.task CheckTask.ClearDiagnostics]) := by
  have hrun : (FlycheckThread.run st stimuli).trace
      = TraceItem.task CheckTask.ClearDiagnostics
        :: (loopGo { st with progress := none } stimuli).trace := rfl
  have hgood : GoodTrace (FlycheckThread.run st stimuli).trace := by
    rw [hrun]
    have h1 : GoodTrace [TraceItem.task CheckTask.ClearDiagnostics] :=
      goodTrace_of_no_runStart (by
        intro x hx
        rcases List.mem_singleton.1 hx with rfl
        simp)
    exact goodTrace_append h1 (loopGo_good stimuli { st with progress := none })
  refine ⟨by rw [hrun]; rfl, hgood.1, ?_⟩
  intro pre post heq
  cases pre with
  | nil =>
    exfalso
    have hh := hgood.2
    rw [heq] at hh
    simp at hh
  | cons a as =>
    have hne : (a :: as) ≠ ([] : List TraceItem) := by simp
    have hchain := hgood.1
    rw [heq] at hchain
    have hjun := (List.chain'_append.1 hchain).2.2
    have hx : clearPrecedes ((a :: as).getLast hne) TraceItem.runStart := by
      apply hjun
      · rw [List.getLast?_eq_getLast _ hne]; rfl
      · rfl
    have hclear := hx rfl
    refine ⟨(a :: as).dropLast, ?_⟩
    conv_lhs => rw [← List.dropLast_append_getLast hne]
    rw [hclear]

/-- C2 witness: a restart request produces the trace ClearDiagnostics
(loop entry), ClearDiagnostics, run start, and the prefix before the run
start indeed ends in a ClearDiagnostics. -/
theorem c2_witness :
    ∃ pre2, ([TraceItem.task CheckTask.ClearDiagnostics,
        TraceItem.task CheckTask.ClearDiagnostics] : List TraceItem)
      = pre2 ++ [TraceItem.task CheckTask.ClearDiagnostics] :=
  (c2_clear_diagnostics_precedes_every_run
      (FlycheckThread.new (FlycheckConfig.CustomCommand "c" []) "/ws" ProgressSource.mk)
      [Stimulus.cmd CheckCommand.Update 0]).2.2
    [TraceItem.task CheckTask.ClearDiagnostics, TraceItem.task CheckTask.ClearDiagnostics]
    [] (by decide)

/-- The loop body exits (breaks out of the loop) exactly when a closed
command channel is observed, provided it does not die on the fatal
progress-before-Begin branch first. -/
theorem loopGo_outcome_iff : ∀ (stimuli : List Stimulus) (st : FlycheckThread),
    (loopGo st stimuli).outcome ≠ LoopOutcome.panicked →
    ((loopGo st stimuli).outcome = LoopOutcome.cmdClosedExit
      ↔ Stimulus.cmdClosed ∈ stimuli) := by
  intro stimuli
  induction stimuli with
  | nil => intro st _h; simp [loopGo]
  | cons stim rest ih =>
    intro st h
    cases stim with
    | cmdClosed => simp [loopGo, selectArm]
    | cmd c now =>
      simp only [loopGo, selectArm] at h ⊢
      rw [ih _ h]
      simp
    | msg e =>
      cases hm : handle_message st e with
      | none =>
        exfalso
        apply h
        simp only [loopGo, selectArm, hm]
      | some pr =>
        obtain ⟨st1, tasks⟩ := pr
        simp only [loopGo, selectArm, hm] at h ⊢
        rw [ih _ h]
        simp
    | msgClosed =>
      simp only [loopGo, selectArm] at h ⊢
      rw [ih _ h]
      simp

/-- C5: the supervisor loop terminates exactly when the command channel
is observed closed (provided it does not die on the fatal branch); and
the arm handling a closed event channel replaces the receiver with the
never-ready channel, releases the bridge-thread handle and continues the
loop. -/
theorem c5_loop_exits_iff_cmd_channel_closed (st : FlycheckThread)
    (stimuli : List Stimulus)
    (h : (FlycheckThread.run st stimuli).outcome ≠ LoopOutcome.panicked) :
    ((FlycheckThread.run st stimuli).outcome = LoopOutcome.cmdClosedExit
        ↔ Stimulus.cmdClosed ∈ stimuli)
    ∧ (∀ st2, selectArm st2 Stimulus.msgClosed
        = MatchOut.cont
            { st2 with message_recv := RecvChannel.never, check_process := none } []) := by
  have hout : (FlycheckThread.run st stimuli).outcome
      = (loopGo { st with progress := none } stimuli).outcome := rfl
  rw [hout] at h ⊢
  exact ⟨loopGo_outcome_iff stimuli _ h, fun _st2 => rfl⟩

/-- C5 witness: a loop fed only a closed command channel exits. -/
theorem c5_witness :
    (FlycheckThread.run
        (FlycheckThread.new (FlycheckConfig.CustomCommand "c" []) "/ws" ProgressSource.mk)
        [Stimulus.cmdClosed]).outcome = LoopOutcome.cmdClosedExit :=
  (c5_loop_exits_iff_cmd_channel_closed
      (FlycheckThread.new (FlycheckConfig.CustomCommand "c" []) "/ws" ProgressSource.mk)
      [Stimulus.cmdClosed] (by decide)).1.mpr (by decide)

/-- C9: in the drop sequence of a Flycheck handle, the command sender is
dropped strictly before the loop thread is joined; and once the sender is
dropped the loop, after draining any pending stimuli, observes the closed
command channel and exits (so the join terminates and no loop activity
outlives the handle). -/
theorem c9_drop_order_and_shutdown :
    (∀ (i j : Nat), flycheckDropSequence[i]? = some DropAction.dropCmdSender →
        flycheckDropSequence[j]? = some DropAction.joinLoopThread → i < j)
    ∧ (∀ (st : FlycheckThread) (pending : List Stimulus),
        (FlycheckThread.run st (pending ++ [Stimulus.cmdClosed])).outcome
            ≠ LoopOutcome.panicked →
        (FlycheckThread.run st (pending ++ [Stimulus.cmdClosed])).outcome
            = LoopOutcome.cmdClosedExit) := by
  constructor
  · intro i j hi hj
    have hi0 : i = 0 := by
      rcases i with _ | _ | _ | i
      · rfl
      · simp [flycheckDropSequence] at hi
      · simp [flycheckDropSequence] at hi
      · simp [flycheckDropSequence] at hi
    have hj1 : j = 1 := by
      rcases j with _ | _ | _ | j
      · simp [flycheckDropSequence] at hj
      · rfl
      · simp [flycheckDropSequence] at hj
      · simp [flycheckDropSequence] at hj
    omega
  · intro st pending h
    have hout : (FlycheckThread.run st (pending ++ [Stimulus.cmdClosed])).outcome
        = (loopGo { st with progress := none } (pending ++ [Stimulus.cmdClosed])).outcome :=
      rfl
    rw [hout] at h ⊢
    exact (loopGo_outcome_iff _ _ h).mpr (by simp)

/-- C9 witness: drop order at concrete indices, and the loop exit for a
concrete handle with no pending stimuli. -/
theorem c9_witness :
    (0 < 1)
    ∧ (FlycheckThread.run
        (FlycheckThread.new (FlycheckConfig.CustomCommand "c" []) "/r" ProgressSource.mk)
        [Stimulus.cmdClosed]).outcome = LoopOutcome.cmdClosedExit :=
  ⟨c9_drop_order_and_shutdown.1 0 1 rfl rfl,
    c9_drop_order_and_shutdown.2
      (FlycheckThread.new (FlycheckConfig.CustomCommand "c" []) "/r" ProgressSource.mk)
      [] (by decide)⟩

theorem bridgeOnMessage_of_suppressed (s : BridgeState) (m : Message)
    (h : suppressed m = true) : bridgeOnMessage s m = (true, s) := by
  cases m with
  | CompilerArtifact a =>
    simp only [suppressed] at h
    simp [bridgeOnMessage, h]
  | CompilerMessage m2 => simp [suppressed] at h
  | BuildScriptExecuted => rfl
  | BuildFinished => simp [suppressed] at h
  | TextLine l => simp [suppressed] at h
  | Unknown => rfl

theorem bridgeOnMessage_of_forwarded (s : BridgeState) (m : Message)
    (h : suppressed m = false) : bridgeOnMessage s m = s.send (CheckEvent.Msg m) := by
  cases m with
  | CompilerArtifact a =>
    simp only [suppressed] at h
    simp [bridgeOnMessage, h]
  | CompilerMessage m2 => rfl
  | BuildScriptExecuted => simp [suppressed] at h
  | BuildFinished => rfl
  | TextLine l => rfl
  | Unknown => simp [suppressed] at h

theorem forwardedMessages_cons_none (rest : List (Option Message)) :
    forwardedMessages (none :: rest) = forwardedMessages rest := rfl

theorem forwardedMessages_cons_suppressed (m : Message) (rest : List (Option Message))
    (h : suppressed m = true) :
    forwardedMessages (some m :: rest) = forwardedMessages rest := by
  simp [forwardedMessages, List.filterMap_cons, h]

theorem forwardedMessages_cons_forwarded (m : Message) (rest : List (Option Message))
    (h : suppressed m = false) :
    forwardedMessages (some m :: rest) = m :: forwardedMessages rest := by
  simp [forwardedMessages, List.filterMap_cons, h]

theorem take_append_le {α : Type} : ∀ (n : Nat) (xs ys : List α), n ≤ xs.length →
    (xs ++ ys).take n = xs.take n := by
  intro n
  induction n with
  | zero => intro xs ys _h; simp
  | succ k ih =>
    intro xs ys h
    cases xs with
    | nil => simp at h
    | cons x xr =>
      simp only [List.cons_append, List.take_succ_cons]
      rw [ih xr ys (by simpa using h)]

theorem take_of_le_length {α : Type} : ∀ (n : Nat) (l : List α), l.length ≤ n →
    l.take n = l := by
  intro n
  induction n with
  | zero =>
    intro l h
    have : l = [] := List.eq_nil_of_length_eq_zero (Nat.le_zero.1 h)
    simp [this]
  | succ k ih =>
    intro l h
    cases l with
    | nil => simp
    | cons x xr =>
      simp only [List.take_succ_cons]
      rw [ih xr (by simpa using h)]

/-- The reading loop driven by the bridge callback: the events delivered
are the forwarded messages truncated by the send budget, and the budget
decreases by the number of forwarded messages. -/
theorem bridge_loop_sent : ∀ (lines : List (Option Message)) (s : BridgeState) (flag : Bool),
    (runCargoLoop bridgeOnMessage lines s flag).1.sent
        = s.sent ++ ((forwardedMessages lines).take s.budget).map CheckEvent.Msg
    ∧ (runCargoLoop bridgeOnMessage lines s flag).1.budget
        = s.budget - (forwardedMessages lines).length := by
  intro lines
  induction lines with
  | nil => intro s flag; simp [runCargoLoop, forwardedMessages]
  | cons l rest ih =>
    intro s flag
    cases l with
    | none =>
      simpa only [runCargoLoop, forwardedMessages_cons_none] using ih s flag
    | some m =>
      cases hm : suppressed m with
      | true =>
        have hb := bridgeOnMessage_of_suppressed s m hm
        simp only [runCargoLoop, hb, forwardedMessages_cons_suppressed m rest hm]
        simpa using ih s true
      | false =>
        have hb := bridgeOnMessage_of_forwarded s m hm
        simp only [runCargoLoop, hb, forwardedMessages_cons_forwarded m rest hm]
        cases s with
        | mk budget sentList =>
          cases budget with
          | zero =>
            simp [BridgeState.send]
          | succ b =>
            simp only [BridgeState.send]
            rw [if_pos trivial]
            have hrec := ih { budget := b, sent := sentList ++ [CheckEvent.Msg m] } true
            refine ⟨?_, ?_⟩
            · rw [hrec.1]
              simp [List.take_succ_cons, List.append_assoc]
            · rw [hrec.2]
              simp [Nat.succ_sub_succ]

/-- Any prefix of `l ++ [a]` that contains `a`, where `a` occurs nowhere
in `l`, is the whole list. -/
theorem take_reaching_last {α : Type} :
    ∀ (l : List α) (a : α), (∀ x ∈ l, x ≠ a) →
      ∀ n, a ∈ (l ++ [a]).take n → (l ++ [a]).take n = l ++ [a] := by
  intro l a
  induction l with
  | nil =>
    intro _hl n hn
    cases n with
    | zero => simp at hn
    | succ k => simp
  | cons x xr ih =>
    intro hl n hn
    cases n with
    | zero => simp at hn
    | succ k =>
      simp only [List.cons_append, List.take_succ_cons] at hn ⊢
      have hx : x ≠ a := hl x (List.mem_cons_self _ _)
      have hmem : a ∈ (xr ++ [a]).take k := by
        rcases List.mem_cons.1 hn with h1 | h2
        · exact absurd h1.symm hx
        · exact h2
      rw [ih (fun y hy => hl y (List.mem_cons_of_mem _ hy)) k hmem]

theorem getLast?_append_singleton {α : Type} : ∀ (l : List α) (a : α),
    (l ++ [a]).getLast? = some a := by
  intro l a
  induction l with
  | nil => rfl
  | cons x xr ih =>
    rw [List.cons_append]
    cases hx : xr ++ [a] with
    | nil => exact absurd hx (by simp)
    | cons y yr =>
      rw [List.getLast?_cons_cons, ← hx]
      exact ih

theorem take_map_comm {α β : Type} (f : α → β) :
    ∀ (n : Nat) (l : List α), (l.take n).map f = (l.map f).take n := by
  intro n
  induction n with
  | zero => intro l; simp
  | succ k ih =>
    intro l
    cases l with
    | nil => simp
    | cons x xr => simp only [List.take_succ_cons, List.map_cons]; rw [ih xr]

theorem send_budget_zero {s : BridgeState} (e : CheckEvent) (h : s.budget = 0) :
    (s.send e).2 = s := by
  cases s with
  | mk b l =>
    cases b with
    | zero => rfl
    | succ k => exact Nat.noConfusion h

theorem send_budget_succ {s : BridgeState} (e : CheckEvent) {b : Nat} (h : s.budget = b + 1) :
    (s.send e).2 = { budget := b, sent := s.sent ++ [e] } := by
  cases s with
  | mk bb l =>
    cases bb with
    | zero => exact Nat.noConfusion h
    | succ k =>
      have hk : k = b := Nat.succ.inj h
      subst hk
      rfl

/-- The events delivered by one bridge-thread execution are exactly the
budget-truncated sequence Begin, forwarded messages, End. -/
theorem check_process_thread_sent (command : CommandSpec) (proc : ProcessRun) (budget : Nat) :
    (check_process_thread command proc budget).sent
      = List.take budget (CheckEvent.Begin ::
          ((forwardedMessages proc.lines).map CheckEvent.Msg ++ [CheckEvent.End])) := by
  cases budget with
  | zero =>
    simp only [check_process_thread]
    rw [send_budget_zero CheckEvent.Begin rfl]
    rw [run_cargo_cbState]
    have hb := bridge_loop_sent proc.lines { budget := 0, sent := [] } false
    have hbud : (runCargoLoop bridgeOnMessage proc.lines
        { budget := 0, sent := [] } false).1.budget = 0 := by
      rw [hb.2]
      exact Nat.zero_sub _
    rw [send_budget_zero CheckEvent.End hbud]
    rw [hb.1]
    simp
  | succ b =>
    simp only [check_process_thread]
    rw [send_budget_succ CheckEvent.Begin rfl]
    simp only [List.nil_append]
    rw [run_cargo_cbState]
    have hb := bridge_loop_sent proc.lines { budget := b, sent := [CheckEvent.Begin] } false
    cases hcmp : b - (forwardedMessages proc.lines).length with
    | zero =>
      have hble : b ≤ (forwardedMessages proc.lines).length :=
        Nat.le_of_sub_eq_zero hcmp
      have hbud : (runCargoLoop bridgeOnMessage proc.lines
          { budget := b, sent := [CheckEvent.Begin] } false).1.budget = 0 := by
        rw [hb.2]; exact hcmp
      rw [send_budget_zero CheckEvent.End hbud]
      rw [hb.1, List.take_succ_cons,
        take_append_le b _ _ (by simpa using hble), ← take_map_comm]
      simp
    | succ k =>
      have hbud : (runCargoLoop bridgeOnMessage proc.lines
          { budget := b, sent := [CheckEvent.Begin] } false).1.budget = k + 1 := by
        rw [hb.2]; exact hcmp
      rw [send_budget_succ CheckEvent.End hbud]
      simp only [hb.1]
      rw [take_of_le_length b (forwardedMessages proc.lines) (by omega)]
      rw [take_of_le_length (b + 1) _ (by simp; omega)]
      simp

/-- The bridge thread logs the `run_cargo` failure (failing exit and no
decoded output) and otherwise logs nothing; it never propagates it. -/
theorem check_process_thread_logged (command : CommandSpec) (proc : ProcessRun)
    (budget : Nat) :
    (check_process_thread command proc budget).logged_error
      = (if proc.exit_status.success = false ∧ proc.lines.any Option.isSome = false then
          some { exit_status := proc.exit_status, command := command }
        else none) := by
  simp only [check_process_thread]
  rw [run_cargo_result_eq]
  by_cases hc : (proc.exit_status.success = false ∧ proc.lines.any Option.isSome = false)
  · rw [if_pos hc, if_pos hc]
  · rw [if_neg hc, if_neg hc]

/-- C4: the events delivered by the bridge thread are exactly the
send-budget-truncated sequence of Begin, then every decoded message that
is not a fresh artifact, not a build-script notification and not an
unknown message, in order, then End; forwarding stops at the first failed
send (budget exhaustion) and End is still attempted; a `run_cargo`
failure is logged, never propagated; and in the delivered sequence Begin
is always first and End, when delivered, is last. -/
theorem c4_event_bridge_sequence (command : CommandSpec) (proc : ProcessRun)
    (budget : Nat) :
    (check_process_thread command proc budget).sent
        = List.take budget (CheckEvent.Begin ::
            ((forwardedMessages proc.lines).map CheckEvent.Msg ++ [CheckEvent.End]))
    ∧ (check_process_thread command proc budget).logged_error
        = (if proc.exit_status.success = false ∧ proc.lines.any Option.isSome = false then
            some { exit_status := proc.exit_status, command := command }
          else none)
    ∧ ((check_process_thread command proc budget).sent ≠ [] →
        (check_process_thread command proc budget).sent.head? = some CheckEvent.Begin)
    ∧ (CheckEvent.End ∈ (check_process_thread command proc budget).sent →
        (check_process_thread command proc budget).sent.getLast? = some CheckEvent.End) := by
  have hs := check_process_thread_sent command proc budget
  refine ⟨hs, check_process_thread_logged command proc budget, ?_, ?_⟩
  · intro hne
    cases budget with
    | zero =>
      rw [hs] at hne
      simp at hne
    | succ b =>
      rw [hs, List.take_succ_cons]
      rfl
  · intro hmem
    have hform : CheckEvent.Begin ::
          ((forwardedMessages proc.lines).map CheckEvent.Msg ++ [CheckEvent.End])
        = (CheckEvent.Begin :: (forwardedMessages proc.lines).map CheckEvent.Msg)
            ++ [CheckEvent.End] := rfl
    rw [hs, hform] at hmem
    rw [hs, hform]
    have hnotin : ∀ x ∈ CheckEvent.Begin ::
        (forwardedMessages proc.lines).map CheckEvent.Msg, x ≠ CheckEvent.End := by
      intro x hx
      rcases List.mem_cons.1 hx with rfl | hx2
      · simp
      · rcases List.mem_map.1 hx2 with ⟨m, _, rfl⟩
        simp
    rw [take_reaching_last _ _ hnotin budget hmem]
    exact getLast?_append_singleton _ _

/-- C4 witness: a process with one diagnostic line and ample budget
delivers Begin first and End last. -/
theorem c4_witness :
    ((check_process_thread (CommandSpec.new "cargo")
        { lines := [some (Message.CompilerMessage { message := { rendered := "d" } })],
          exit_status := { code := some 0 } } 5).sent ≠ [])
    ∧ (check_process_thread (CommandSpec.new "cargo")
        { lines := [some (Message.CompilerMessage { message := { rendered := "d" } })],
          exit_status := { code := some 0 } } 5).sent.head? = some CheckEvent.Begin
    ∧ (check_process_thread (CommandSpec.new "cargo")
        { lines := [some (Message.CompilerMessage { message := { rendered := "d" } })],
          exit_status := { code := some 0 } } 5).sent.getLast? = some CheckEvent.End :=
  ⟨by decide,
    (c4_event_bridge_sequence (CommandSpec.new "cargo")
        { lines := [some (Message.CompilerMessage { message := { rendered := "d" } })],
          exit_status := { code := some 0 } } 5).2.2.1 (by decide),
    (c4_event_bridge_sequence (CommandSpec.new "cargo")
        { lines := [some (Message.CompilerMessage { message := { rendered := "d" } })],
          exit_status := { code := some 0 } } 5).2.2.2 (by decide)⟩
